import Mathlib

/-!
Shallow embedding of the multi-target tracking core of the `hexar`
repository (`src/tracker.rs`, `src/radar_controller.rs`).

Modelling conventions:
* `f32` scalars are embedded as `ℚ` (exact arithmetic); all definitions are
  executable.
* `nalgebra` fixed-size vectors/matrices become Mathlib `Matrix (Fin n) (Fin m) ℚ`
  and `Fin n → ℚ`.
* `Instant` timestamps become rational times threaded explicitly as a `now`
  parameter; `Instant` subtraction saturates at zero, as in Rust, so an
  elapsed duration is `max (now - t) 0`.
* `HashMap<u32, T>` becomes an association list `List (ℕ × T)` whose order
  models the (unspecified) hash-map iteration order.
* A comparison `v.norm() > c` with `c ≥ 0` is embedded by the equivalent
  squared form `v.x² + v.y² > c²`, keeping everything inside `ℚ`.
* `try_inverse().unwrap()` in `KalmanFilter::update` panics when the 2×2
  innovation covariance has zero determinant (nalgebra's `try_inverse`
  returns `None` exactly on zero determinant); the embedding returns an
  `Option`, with `none` modelling the panic/abort.
-/

/-- 2D vector over ℚ, embedding `nalgebra::Vector2<f32>`. -/
structure Vec2 where
  x : ℚ
  y : ℚ
deriving DecidableEq, Repr

namespace Vec2

/-- Squared Euclidean norm; `v.norm() > c` (c ≥ 0) is embedded as `sqNorm v > c²`. -/
def sqNorm (v : Vec2) : ℚ := v.x * v.x + v.y * v.y

/-- Squared distance between two points, embedding `(a - b).norm()` comparisons. -/
def sqDist (a b : Vec2) : ℚ := sqNorm ⟨a.x - b.x, a.y - b.y⟩

end Vec2

/-- `TargetState` from `src/tracker.rs`. -/
inductive TargetState where
  | Tracking
  | Falling
  | Lost
  | Predicted
deriving DecidableEq, Repr

/-- `TrackedTarget` from `src/tracker.rs`; `last_update : ℚ` models the `Instant`. -/
structure TrackedTarget where
  id : ℕ
  antenna_id : ℕ
  position : Vec2
  velocity : Vec2
  acceleration : Vec2
  state : TargetState
  confidence : ℚ
  last_update : ℚ
  prediction_count : ℕ
  fall_probability : ℚ
deriving DecidableEq, Repr

namespace TrackedTarget

/-- `TrackedTarget::new`; `now` models `Instant::now()`. -/
def new (id : ℕ) (antenna_id : ℕ) (position : Vec2) (now : ℚ) : TrackedTarget :=
  { id := id
    antenna_id := antenna_id
    position := position
    velocity := ⟨0, 0⟩
    acceleration := ⟨0, 0⟩
    state := TargetState.Tracking
    confidence := 1
    last_update := now
    prediction_count := 0
    fall_probability := 0 }

/-- `TrackedTarget::update_position`; `now` models the `Instant::now()` call inside. -/
def update_position (t : TrackedTarget) (new_position : Vec2) (dt : ℚ) (now : ℚ) :
    TrackedTarget :=
  if 0 < dt then
    let new_velocity : Vec2 :=
      ⟨(new_position.x - t.position.x) / dt, (new_position.y - t.position.y) / dt⟩
    { t with
      acceleration := ⟨(new_velocity.x - t.velocity.x) / dt,
                       (new_velocity.y - t.velocity.y) / dt⟩
      velocity := new_velocity
      position := new_position
      last_update := now
      prediction_count := 0
      confidence := min (t.confidence * 0.8 + 0.2) 1 }
  else t

/-- `TrackedTarget::is_falling`. -/
def is_falling (t : TrackedTarget) : Prop := t.fall_probability > 0.7

instance (t : TrackedTarget) : Decidable t.is_falling := by
  unfold is_falling; infer_instance

end TrackedTarget

/-- The fixed measurement matrix H from `KalmanFilter::new`. -/
def measurementMatrix : Matrix (Fin 2) (Fin 6) ℚ :=
  Matrix.of ![![1, 0, 0, 0, 0, 0], ![0, 1, 0, 0, 0, 0]]

/-- `KalmanFilter` from `src/tracker.rs`: state `[x, y, vx, vy, ax, ay]`.
The cached `state_transition` field is recomputed from scratch on every
`predict` call in the source and the static `measurement_matrix` field is the
constant `measurementMatrix`, so neither carries semantic state and both are
left out of the record. -/
structure KalmanFilter where
  state : Fin 6 → ℚ
  covariance : Matrix (Fin 6) (Fin 6) ℚ
  process_noise : Matrix (Fin 6) (Fin 6) ℚ
  measurement_noise : Matrix (Fin 2) (Fin 2) ℚ

namespace KalmanFilter

/-- `KalmanFilter::new`. -/
def new (initial_position : Vec2) : KalmanFilter :=
  { state := fun i =>
      if i = 0 then initial_position.x else if i = 1 then initial_position.y else 0
    covariance := (100 : ℚ) • (1 : Matrix (Fin 6) (Fin 6) ℚ)
    process_noise := (0.1 : ℚ) • (1 : Matrix (Fin 6) (Fin 6) ℚ)
    measurement_noise := (1 : ℚ) • (1 : Matrix (Fin 2) (Fin 2) ℚ) }

/-- The transition matrix F built inside `KalmanFilter::predict`: identity with
the constant-acceleration coupling entries assigned. -/
def transitionMatrix (dt : ℚ) : Matrix (Fin 6) (Fin 6) ℚ :=
  Matrix.of fun i j =>
    if i = j then 1
    else if i = 0 ∧ j = 2 then dt
    else if i = 1 ∧ j = 3 then dt
    else if i = 0 ∧ j = 4 then 0.5 * dt * dt
    else if i = 1 ∧ j = 5 then 0.5 * dt * dt
    else if i = 2 ∧ j = 4 then dt
    else if i = 3 ∧ j = 5 then dt
    else 0

/-- `KalmanFilter::predict`. -/
def predict (kf : KalmanFilter) (dt : ℚ) : KalmanFilter :=
  let f := transitionMatrix dt
  { kf with
    state := f.mulVec kf.state
    covariance := f * kf.covariance * f.transpose + kf.process_noise }

/-- nalgebra `try_inverse` for a 2×2 matrix: `none` iff the determinant is zero,
otherwise the adjugate divided by the determinant. -/
def tryInverse2 (a : Matrix (Fin 2) (Fin 2) ℚ) : Option (Matrix (Fin 2) (Fin 2) ℚ) :=
  let det := a 0 0 * a 1 1 - a 0 1 * a 1 0
  if det = 0 then none
  else some (Matrix.of ![![a 1 1 / det, -(a 0 1) / det], ![-(a 1 0) / det, a 0 0 / det]])

/-- `KalmanFilter::update`.  The source unwraps `try_inverse()`, panicking when
the innovation covariance is singular; `none` models that panic.  Only the two
position rows of the state vector are corrected, exactly as in the source. -/
def update (kf : KalmanFilter) (measurement : Vec2) : Option KalmanFilter :=
  let innovation : Fin 2 → ℚ :=
    ![measurement.x - kf.state 0, measurement.y - kf.state 1]
  let h := measurementMatrix
  let innovation_covariance := h * kf.covariance * h.transpose + kf.measurement_noise
  match tryInverse2 innovation_covariance with
  | none => none
  | some sInv =>
    let kalman_gain := kf.covariance * h.transpose * sInv
    let state_update := kalman_gain.mulVec innovation
    some { kf with
      state := fun i =>
        if i = 0 then kf.state 0 + state_update 0
        else if i = 1 then kf.state 1 + state_update 1
        else kf.state i
      covariance := ((1 : Matrix (Fin 6) (Fin 6) ℚ) - kalman_gain * h) * kf.covariance }

/-- `KalmanFilter::get_position`. -/
def get_position (kf : KalmanFilter) : Vec2 := ⟨kf.state 0, kf.state 1⟩

/-- `KalmanFilter::get_velocity`. -/
def get_velocity (kf : KalmanFilter) : Vec2 := ⟨kf.state 2, kf.state 3⟩

/-- `KalmanFilter::get_acceleration`. -/
def get_acceleration (kf : KalmanFilter) : Vec2 := ⟨kf.state 4, kf.state 5⟩

end KalmanFilter

/-- `FallDetector` from `src/tracker.rs` (the unused `time_window` is dropped). -/
structure FallDetector where
  gravity_threshold : ℚ
  velocity_threshold : ℚ
  acceleration_threshold : ℚ
deriving DecidableEq, Repr

namespace FallDetector

/-- `FallDetector::new`. -/
def new : FallDetector :=
  { gravity_threshold := -9.5
    velocity_threshold := 2.0
    acceleration_threshold := 15.0 }

/-- `FallDetector::analyze_fall_risk`; the two norm comparisons are embedded in
squared form (`‖a‖ > c ↔ sqNorm a > c²` for the positive thresholds used). -/
def analyze_fall_risk (d : FallDetector) (target : TrackedTarget) : ℚ :=
  let risk₀ : ℚ := 0
  let risk₁ := if target.acceleration.y < d.gravity_threshold then risk₀ + 0.4 else risk₀
  let risk₂ := if target.velocity.y < -d.velocity_threshold then risk₁ + 0.3 else risk₁
  let risk₃ := if target.acceleration.sqNorm > d.acceleration_threshold * d.acceleration_threshold
    then risk₂ + 0.2 else risk₂
  let risk₄ := if target.velocity.sqNorm >
      (d.velocity_threshold * 2.0) * (d.velocity_threshold * 2.0)
    then risk₃ + 0.1 else risk₃
  min risk₄ 1

/-- The loop body of `FallDetector::predict_fall_trajectory`: velocity is
advanced by gravity before the position step (semi-implicit Euler), with
gravity `(0, -9.81)` and step `dt = 0.05`. -/
def trajectoryFrom : ℕ → Vec2 → Vec2 → List Vec2
  | 0, _, _ => []
  | n + 1, position, velocity =>
    let velocity' : Vec2 := ⟨velocity.x + 0 * 0.05, velocity.y + (-9.81) * 0.05⟩
    let position' : Vec2 := ⟨position.x + velocity'.x * 0.05, position.y + velocity'.y * 0.05⟩
    position' :: trajectoryFrom n position' velocity'

/-- `FallDetector::predict_fall_trajectory`. -/
def predict_fall_trajectory (_d : FallDetector) (target : TrackedTarget)
    (time_steps : ℕ) : List Vec2 :=
  trajectoryFrom time_steps target.position target.velocity

end FallDetector

/-- `MultiTargetTracker` from `src/tracker.rs`.  The two `HashMap<u32, _>`s are
embedded as association lists whose order models hash-map iteration order. -/
structure MultiTargetTracker where
  targets : List (ℕ × TrackedTarget)
  kalman_filters : List (ℕ × KalmanFilter)
  fall_detector : FallDetector
  next_target_id : ℕ
  max_targets_per_antenna : ℕ
  antenna_count : ℕ

namespace MultiTargetTracker

/-- `MultiTargetTracker::new`. -/
def new (antenna_count : ℕ) : MultiTargetTracker :=
  { targets := []
    kalman_filters := []
    fall_detector := FallDetector.new
    next_target_id := 0
    max_targets_per_antenna := 8
    antenna_count := antenna_count }

/-- In-place mutation of the entry for `id` in an association list, modelling
`HashMap::get_mut`. -/
def setEntry {α : Type} (l : List (ℕ × α)) (id : ℕ) (a : α) : List (ℕ × α) :=
  l.map fun p => if p.1 = id then (id, a) else p

/-- `MultiTargetTracker::add_target`; returns the `Option<u32>` together with
the new tracker state.  `now` models `Instant::now()` inside `TrackedTarget::new`. -/
def add_target (tr : MultiTargetTracker) (antenna_id : ℕ) (position : Vec2)
    (now : ℚ) : Option ℕ × MultiTargetTracker :=
  let current_count := (tr.targets.filter fun p => p.2.antenna_id = antenna_id).length
  if tr.max_targets_per_antenna ≤ current_count then
    (none, tr)
  else
    let target_id := tr.next_target_id
    let target := TrackedTarget.new target_id antenna_id position now
    let kalman_filter := KalmanFilter.new position
    (some target_id,
     { tr with
       next_target_id := target_id + 1
       targets := tr.targets ++ [(target_id, target)]
       kalman_filters := tr.kalman_filters ++ [(target_id, kalman_filter)] })

/-- Lines 323–328 of `update_target`: recompute `fall_probability` and branch
the lifecycle state on the 0.7 threshold. -/
def applyFallAnalysis (d : FallDetector) (t : TrackedTarget) : TrackedTarget :=
  let p := d.analyze_fall_risk t
  { t with
    fall_probability := p
    state := if p > 0.7 then TargetState.Falling else TargetState.Tracking }

/-- `MultiTargetTracker::update_target`.  `now` models `Instant::now()`; the
elapsed `dt` saturates at zero as `Instant` subtraction does.  The outer
`Option` is `none` exactly when the Kalman update panics on a singular
innovation covariance; otherwise the returned `Bool` is the source's return
value. -/
def update_target (tr : MultiTargetTracker) (target_id : ℕ) (new_position : Vec2)
    (now : ℚ) : Option (Bool × MultiTargetTracker) :=
  match tr.targets.lookup target_id, tr.kalman_filters.lookup target_id with
  | some target, some kalman_filter =>
    let dt := max (now - target.last_update) 0
    if 0 < dt then
      let kf₁ := kalman_filter.predict dt
      match kf₁.update new_position with
      | none => none
      | some kf₂ =>
        let filtered_pos := kf₂.get_position
        let t₁ := target.update_position filtered_pos dt now
        let t₂ := { t₁ with
                    velocity := kf₂.get_velocity
                    acceleration := kf₂.get_acceleration }
        let t₃ := applyFallAnalysis tr.fall_detector t₂
        some (true,
          { tr with
            targets := setEntry tr.targets target_id t₃
            kalman_filters := setEntry tr.kalman_filters target_id kf₂ })
    else
      some (false, tr)
  | _, _ => some (false, tr)

/-- The per-target body of `MultiTargetTracker::predict_all_targets`. -/
def coastTarget (t : TrackedTarget) (kf : KalmanFilter) : TrackedTarget :=
  { t with
    position := kf.get_position
    velocity := kf.get_velocity
    acceleration := kf.get_acceleration
    state := TargetState.Predicted
    prediction_count := t.prediction_count + 1
    confidence := t.confidence * 0.9 }

/-- `MultiTargetTracker::predict_all_targets`: every target with a filter is
coasted by `dt`; the corresponding filters are advanced by `predict dt`. -/
def predict_all_targets (tr : MultiTargetTracker) (dt : ℚ) : MultiTargetTracker :=
  { tr with
    targets := tr.targets.map fun p =>
      match tr.kalman_filters.lookup p.1 with
      | some kf => (p.1, coastTarget p.2 (kf.predict dt))
      | none => p
    kalman_filters := tr.kalman_filters.map fun p =>
      if (tr.targets.lookup p.1).isSome then (p.1, p.2.predict dt) else p }

/-- The removal condition of `MultiTargetTracker::remove_lost_targets`. -/
def lostCondition (now : ℚ) (timeout : ℚ) (t : TrackedTarget) : Prop :=
  max (now - t.last_update) 0 > timeout ∨ t.confidence < 0.1 ∨ t.prediction_count > 10

instance (now timeout : ℚ) (t : TrackedTarget) : Decidable (lostCondition now timeout t) := by
  unfold lostCondition; infer_instance

/-- `MultiTargetTracker::remove_lost_targets`: collect the ids meeting a
pruning condition, then remove them from both maps. -/
def remove_lost_targets (tr : MultiTargetTracker) (now : ℚ) (timeout : ℚ) :
    MultiTargetTracker :=
  let to_remove := (tr.targets.filter fun p => decide (lostCondition now timeout p.2)).map
    Prod.fst
  { tr with
    targets := tr.targets.filter fun p => ¬ p.1 ∈ to_remove
    kalman_filters := tr.kalman_filters.filter fun p => ¬ p.1 ∈ to_remove }

/-- `MultiTargetTracker::get_target_count_by_antenna`. -/
def get_target_count_by_antenna (tr : MultiTargetTracker) (antenna_id : ℕ) : ℕ :=
  (tr.targets.filter fun p => p.2.antenna_id = antenna_id).length

end MultiTargetTracker

/-- `RadarController::find_nearby_target` (`src/radar_controller.rs` lines
344–355): first live track, in iteration order, strictly within distance 2.0
of the detection; `distance < 2.0` is embedded as `sqDist < 4`. -/
def find_nearby_target : List (ℕ × TrackedTarget) → Vec2 → Option ℕ
  | [], _ => none
  | (i, t) :: rest, position =>
    if Vec2.sqDist t.position position < 2.0 * 2.0 then some i
    else find_nearby_target rest position

/-- The associate-or-create branch of `RadarController::run_scan_cycle`
(lines 125–141): a detection either updates the first nearby track or is added
as a new track.  `none` models the panic propagating out of `update_target`. -/
def processDetection (tr : MultiTargetTracker) (antenna_id : ℕ) (position : Vec2)
    (now : ℚ) : Option MultiTargetTracker :=
  match find_nearby_target tr.targets position with
  | some target_id => (tr.update_target target_id position now).map Prod.snd
  | none => some (tr.add_target antenna_id position now).2

/-- A sequence of `update_target` calls on one fixed track id; `none` when a
Kalman update along the way panics. -/
def runUpdates (target_id : ℕ) :
    MultiTargetTracker → List (Vec2 × ℚ) → Option MultiTargetTracker
  | tr, [] => some tr
  | tr, (pos, now) :: rest =>
    match tr.update_target target_id pos now with
    | none => none
    | some (_, tr') => runUpdates target_id tr' rest

/-- One public mutating operation of the Tracking Manager. -/
inductive TrackOp where
  | add (antenna_id : ℕ) (position : Vec2) (now : ℚ)
  | measure (target_id : ℕ) (position : Vec2) (now : ℚ)
  | coast (dt : ℚ)
  | prune (now : ℚ) (timeout : ℚ)

/-- Apply one Tracking Manager operation; `none` models the Kalman panic. -/
def stepOp (tr : MultiTargetTracker) : TrackOp → Option MultiTargetTracker
  | TrackOp.add a p now => some (tr.add_target a p now).2
  | TrackOp.measure id p now => (tr.update_target id p now).map Prod.snd
  | TrackOp.coast dt => some (tr.predict_all_targets dt)
  | TrackOp.prune now timeout => some (tr.remove_lost_targets now timeout)

/-- Run a finite sequence of Tracking Manager operations. -/
def runOps : MultiTargetTracker → List TrackOp → Option MultiTargetTracker
  | tr, [] => some tr
  | tr, op :: rest =>
    match stepOp tr op with
    | none => none
    | some tr' => runOps tr' rest

/-- Run a sequence of `add_target` calls, counting the capacity-exceeded
(`None`) results. -/
def runAdds : MultiTargetTracker → List (ℕ × Vec2 × ℚ) → MultiTargetTracker × ℕ
  | tr, [] => (tr, 0)
  | tr, (a, p, now) :: rest =>
    let step := tr.add_target a p now
    let result := runAdds step.2 rest
    (result.1, result.2 + if step.1.isSome then 0 else 1)


/-- A filter state whose innovation covariance `H·P·Hᵗ + R` is the zero matrix
(singular), witnessing the panic path of `KalmanFilter::update`. -/
def singularCovarianceKF : KalmanFilter :=
  { state := fun _ => 0
    covariance := Matrix.of fun i j => if i = j ∧ (i : ℕ) < 2 then -1 else 0
    process_noise := (0.1 : ℚ) • (1 : Matrix (Fin 6) (Fin 6) ℚ)
    measurement_noise := (1 : ℚ) • (1 : Matrix (Fin 2) (Fin 2) ℚ) }

/-- Tracker holding two live tracks, both within the gating distance of the
origin: id 0 at (1.5, 0) (iteration-first) and id 1 at (0.5, 0) (nearer). -/
def twoNearTracker : MultiTargetTracker :=
  ((((MultiTargetTracker.new 4).add_target 0 ⟨1.5, 0⟩ 0).2).add_target 0 ⟨0.5, 0⟩ 0).2

/-- Tracker holding the single live track id 0 at (1, 2), created at time 0. -/
def oneTrackTracker : MultiTargetTracker :=
  ((MultiTargetTracker.new 4).add_target 0 ⟨1, 2⟩ 0).2

/-- Invariant of C6: every live track's confidence and fall-risk score lie in
[0, 1]. -/
def confFallInv (tr : MultiTargetTracker) : Prop :=
  ∀ q ∈ tr.targets, 0 ≤ q.2.confidence ∧ q.2.confidence ≤ 1 ∧
    0 ≤ q.2.fall_probability ∧ q.2.fall_probability ≤ 1

/-- Invariant of C2 at the filter level: the velocity and acceleration rows of
the Kalman state vector are exactly zero. -/
def kfZeroVA (kf : KalmanFilter) : Prop :=
  kf.state 2 = 0 ∧ kf.state 3 = 0 ∧ kf.state 4 = 0 ∧ kf.state 5 = 0

/-- Invariant of C2 at the tracker level for one track id: default detector
thresholds, the track's stored velocity/acceleration are zero with zero fall
risk and non-`Falling` state, and its filter satisfies `kfZeroVA`. -/
def trackerZeroVA (tr : MultiTargetTracker) (id : ℕ) : Prop :=
  tr.fall_detector = FallDetector.new ∧
  (∀ t, tr.targets.lookup id = some t →
    t.velocity = ⟨0, 0⟩ ∧ t.acceleration = ⟨0, 0⟩ ∧ t.fall_probability = 0 ∧
    t.state ≠ TargetState.Falling) ∧
  (∀ kf, tr.kalman_filters.lookup id = some kf → kfZeroVA kf)

/-- C1.  The spec requires a singular innovation covariance to make the
measurement update a skipped, non-fatal cycle.  The source instead calls
`innovation_covariance.try_inverse().unwrap()`, which panics when the inverse
does not exist: at a filter state whose innovation covariance is singular the
update aborts (modelled by `none`) rather than being skipped. -/
theorem claim_C1_singular_innovation_aborts :
    singularCovarianceKF.update ⟨0, 0⟩ = none := by
  unfold KalmanFilter.update KalmanFilter.tryInverse2
  norm_num [singularCovarianceKF, measurementMatrix, Matrix.mul_apply,
    Matrix.add_apply, Matrix.transpose_apply, Matrix.smul_apply, Matrix.one_apply,
    Fin.sum_univ_six, Fin.sum_univ_two, Matrix.of_apply, Matrix.cons_val_zero,
    Matrix.cons_val_one, Matrix.head_cons, Matrix.vecMul, Matrix.vecHead,
    Matrix.vecTail, Matrix.dotProduct, Matrix.cons_val', Matrix.cons_val_fin_one,
    Function.comp]

/-- C3 counterexample.  For a track at rest at the origin, the one-step
trajectory preview's first position has `y = -9.81·0.05²`, not approximately
`-0.5·9.81·0.05²` as claimed: the code advances velocity before position
(semi-implicit Euler), so the first displacement is double the claimed value
and misses it even at a generous 50 % relative tolerance. -/
theorem claim_C3_counterexample :
    (FallDetector.new.predict_fall_trajectory (TrackedTarget.new 0 0 ⟨0, 0⟩ 0) 1).head? =
      some ⟨0, -(9.81 * 0.05 * 0.05)⟩ ∧
    ¬ |(-(9.81 * 0.05 * 0.05) : ℚ) - -(0.5 * 9.81 * 0.05 * 0.05)| ≤
        |(-(0.5 * 9.81 * 0.05 * 0.05) : ℚ)| / 2 := by
  constructor
  · show (FallDetector.trajectoryFrom 1 ⟨0, 0⟩ ⟨0, 0⟩).head? = _
    norm_num [FallDetector.trajectoryFrom]
  · rw [show (-(9.81 * 0.05 * 0.05) : ℚ) - -(0.5 * 9.81 * 0.05 * 0.05) =
        -(981 / 80000) by norm_num,
      show (-(0.5 * 9.81 * 0.05 * 0.05) : ℚ) = -(981 / 80000) by norm_num,
      abs_neg, abs_of_nonneg (by norm_num : (0 : ℚ) ≤ 981 / 80000)]
    norm_num

/-- C3 amended.  For a track at position (0,0) with velocity (0,0), a 1-step
ballistic preview yields first position `(0, -9.81·0.05²)` — the velocity is
advanced by gravity before the position step — and the preview is a pure
function of the track's position and velocity alone (in particular it mutates
nothing and ignores the filtered state beyond those two fields). -/
theorem claim_C3_first_step_and_purity (t t' : TrackedTarget) (n : ℕ)
    (hp : t.position = ⟨0, 0⟩) (hv : t.velocity = ⟨0, 0⟩)
    (hp' : t'.position = t.position) (hv' : t'.velocity = t.velocity) :
    (FallDetector.new.predict_fall_trajectory t 1).head? =
      some ⟨0, -(9.81 * 0.05 * 0.05)⟩ ∧
    FallDetector.new.predict_fall_trajectory t' n =
      FallDetector.new.predict_fall_trajectory t n := by
  constructor
  · show (FallDetector.trajectoryFrom 1 t.position t.velocity).head? = _
    rw [hp, hv]
    norm_num [FallDetector.trajectoryFrom]
  · show FallDetector.trajectoryFrom n t'.position t'.velocity =
      FallDetector.trajectoryFrom n t.position t.velocity
    rw [hp', hv']

/-- C3 witness: the amended claim holds at the concrete at-rest track. -/
theorem claim_C3_first_step_and_purity_witness :
    (FallDetector.new.predict_fall_trajectory (TrackedTarget.new 0 0 ⟨0, 0⟩ 0) 1).head? =
      some ⟨0, -(9.81 * 0.05 * 0.05)⟩ ∧
    FallDetector.new.predict_fall_trajectory (TrackedTarget.new 0 0 ⟨0, 0⟩ 0) 3 =
      FallDetector.new.predict_fall_trajectory (TrackedTarget.new 0 0 ⟨0, 0⟩ 0) 3 :=
  claim_C3_first_step_and_purity (TrackedTarget.new 0 0 ⟨0, 0⟩ 0)
    (TrackedTarget.new 0 0 ⟨0, 0⟩ 0) 3 rfl rfl rfl rfl

/-- C10.  A track with velocity (0, -5) and acceleration (0, -10) scores
0.4 + 0.3 + 0.1 = 0.8 > 0.7 (downward acceleration below -9.5, downward
velocity below -2, speed above 4), `is_falling` holds once the score is
stored, and the measurement-update branch computing this score sets the
lifecycle state to `Falling`. -/
theorem claim_C10_fall_risk_scenario (t : TrackedTarget)
    (hv : t.velocity = ⟨0, -5⟩) (ha : t.acceleration = ⟨0, -10⟩) :
    FallDetector.new.analyze_fall_risk t > 0.7 ∧
    (MultiTargetTracker.applyFallAnalysis FallDetector.new t).is_falling ∧
    (MultiTargetTracker.applyFallAnalysis FallDetector.new t).state =
      TargetState.Falling := by
  have hscore : FallDetector.new.analyze_fall_risk t = 0.8 := by
    unfold FallDetector.analyze_fall_risk FallDetector.new
    rw [hv, ha]
    norm_num [Vec2.sqNorm]
  refine ⟨by rw [hscore]; norm_num, ?_, ?_⟩
  · show (MultiTargetTracker.applyFallAnalysis FallDetector.new t).fall_probability > 0.7
    unfold MultiTargetTracker.applyFallAnalysis
    rw [hscore]
    norm_num
  · unfold MultiTargetTracker.applyFallAnalysis
    rw [hscore]
    norm_num

/-- C10 witness: the scenario track with velocity (0, -5), acceleration (0, -10). -/
theorem claim_C10_fall_risk_scenario_witness :
    FallDetector.new.analyze_fall_risk
        { TrackedTarget.new 1 0 ⟨0, 10⟩ 0 with
          velocity := ⟨0, -5⟩, acceleration := ⟨0, -10⟩ } > 0.7 ∧
    (MultiTargetTracker.applyFallAnalysis FallDetector.new
        { TrackedTarget.new 1 0 ⟨0, 10⟩ 0 with
          velocity := ⟨0, -5⟩, acceleration := ⟨0, -10⟩ }).is_falling ∧
    (MultiTargetTracker.applyFallAnalysis FallDetector.new
        { TrackedTarget.new 1 0 ⟨0, 10⟩ 0 with
          velocity := ⟨0, -5⟩, acceleration := ⟨0, -10⟩ }).state =
      TargetState.Falling :=
  claim_C10_fall_risk_scenario _ rfl rfl

/-- C9.  When the elapsed time since a live track's last update is zero or
negative (`now ≤ last_update`; `Instant` subtraction saturates at zero), the
update reports `false` and returns the tracker completely unchanged — track
kinematics, confidence, coast counter, lifecycle state, fall-risk score and
the estimator all keep their previous values. -/
theorem claim_C9_degenerate_dt_noop (tr : MultiTargetTracker) (id : ℕ)
    (pos : Vec2) (now : ℚ) (t : TrackedTarget)
    (ht : tr.targets.lookup id = some t) (hnow : now ≤ t.last_update) :
    tr.update_target id pos now = some (false, tr) := by
  have hdt : max (now - t.last_update) 0 = 0 :=
    max_eq_right (sub_nonpos.mpr hnow)
  unfold MultiTargetTracker.update_target
  rw [ht]
  cases hk : tr.kalman_filters.lookup id with
  | none => rfl
  | some kf =>
    simp only [hdt]
    norm_num

/-- C4 counterexample.  In `twoNearTracker` both live tracks are strictly
within the gating distance of the detection (0, 0), yet `find_nearby_target`
selects track 0 at distance 1.5 while track 1 at distance 0.5 is strictly
nearer: the selected track is the first within the gate in iteration order,
not a distance minimizer. -/
theorem claim_C4_counterexample :
    find_nearby_target twoNearTracker.targets ⟨0, 0⟩ = some 0 ∧
    twoNearTracker.targets.lookup 1 = some (TrackedTarget.new 1 0 ⟨0.5, 0⟩ 0) ∧
    Vec2.sqDist (⟨0.5, 0⟩ : Vec2) ⟨0, 0⟩ < 2.0 * 2.0 ∧
    twoNearTracker.targets.lookup 0 = some (TrackedTarget.new 0 0 ⟨1.5, 0⟩ 0) ∧
    Vec2.sqDist (⟨0.5, 0⟩ : Vec2) ⟨0, 0⟩ < Vec2.sqDist (⟨1.5, 0⟩ : Vec2) ⟨0, 0⟩ := by
  have htr : twoNearTracker.targets =
      [(0, TrackedTarget.new 0 0 ⟨1.5, 0⟩ 0), (1, TrackedTarget.new 1 0 ⟨0.5, 0⟩ 0)] := rfl
  refine ⟨?_, ?_, ?_, ?_, ?_⟩
  · rw [htr]
    norm_num [find_nearby_target, Vec2.sqDist, Vec2.sqNorm, TrackedTarget.new]
  · rw [htr]; rfl
  · norm_num [Vec2.sqDist, Vec2.sqNorm]
  · rw [htr]; rfl
  · norm_num [Vec2.sqDist, Vec2.sqNorm]

/-- C4 amended.  Whenever `find_nearby_target` selects a track, that track is
the first one in live-track iteration order lying strictly within the gating
distance 2.0: it is within the gate, and every track preceding it in the
iteration order is outside the gate (it need not be the nearest). -/
theorem claim_C4_first_track_within_gate (l : List (ℕ × TrackedTarget)) (p : Vec2)
    (i : ℕ) (h : find_nearby_target l p = some i) :
    ∃ pre t post, l = pre ++ (i, t) :: post ∧
      Vec2.sqDist t.position p < 2.0 * 2.0 ∧
      ∀ q ∈ pre, ¬ Vec2.sqDist q.2.position p < 2.0 * 2.0 := by
  induction l with
  | nil => simp [find_nearby_target] at h
  | cons hd tl ih =>
    obtain ⟨j, t⟩ := hd
    by_cases hin : Vec2.sqDist t.position p < 2.0 * 2.0
    · have : j = i := by
        simpa [find_nearby_target, hin] using h
      exact ⟨[], t, tl, by rw [this, List.nil_append], hin, by simp⟩
    · have h' : find_nearby_target tl p = some i := by
        simpa [find_nearby_target, hin] using h
      obtain ⟨pre, t', post, heq, ht', hpre⟩ := ih h'
      exact ⟨(j, t) :: pre, t', post, by rw [List.cons_append, ← heq], ht', by
        intro q hq
        rcases List.mem_cons.mp hq with hq | hq
        · rw [hq]; exact hin
        · exact hpre q hq⟩

/-- C4 witness: the amended claim applied to `twoNearTracker` and detection
(0, 0), whose selected track is id 0. -/
theorem claim_C4_first_track_within_gate_witness :
    ∃ pre t post, twoNearTracker.targets = pre ++ (0, t) :: post ∧
      Vec2.sqDist t.position ⟨0, 0⟩ < 2.0 * 2.0 ∧
      ∀ q ∈ pre, ¬ Vec2.sqDist q.2.position ⟨0, 0⟩ < 2.0 * 2.0 :=
  claim_C4_first_track_within_gate twoNearTracker.targets ⟨0, 0⟩ 0 (by
    norm_num [twoNearTracker, MultiTargetTracker.add_target, MultiTargetTracker.new,
      find_nearby_target, Vec2.sqDist, Vec2.sqNorm, TrackedTarget.new])

/-- One `add_target` call preserves the per-channel capacity bound of 8. -/
theorem add_target_preserves_capacity (tr : MultiTargetTracker)
    (h8 : tr.max_targets_per_antenna = 8)
    (hc : ∀ b, tr.get_target_count_by_antenna b ≤ 8) (a : ℕ) (p : Vec2) (now : ℚ) :
    (tr.add_target a p now).2.max_targets_per_antenna = 8 ∧
    ∀ b, (tr.add_target a p now).2.get_target_count_by_antenna b ≤ 8 := by
  unfold MultiTargetTracker.add_target
  by_cases hfull :
      tr.max_targets_per_antenna ≤
        (tr.targets.filter fun p => p.2.antenna_id = a).length
  · simpa [hfull] using ⟨h8, hc⟩
  · simp only [hfull, if_false]
    refine ⟨h8, fun b => ?_⟩
    unfold MultiTargetTracker.get_target_count_by_antenna at hc ⊢
    simp only [List.filter_append, List.length_append]
    by_cases hba : a = b
    · have hlt : (tr.targets.filter fun p => p.2.antenna_id = a).length < 8 := by
        omega
      subst hba
      simp [TrackedTarget.new]
      omega
    · simpa [TrackedTarget.new, hba] using hc b

/-- Any `runAdds` sequence preserves the per-channel capacity bound of 8. -/
theorem runAdds_capacity (ops : List (ℕ × Vec2 × ℚ)) :
    ∀ tr : MultiTargetTracker, tr.max_targets_per_antenna = 8 →
      (∀ b, tr.get_target_count_by_antenna b ≤ 8) →
      ∀ b, (runAdds tr ops).1.get_target_count_by_antenna b ≤ 8 := by
  induction ops with
  | nil => intro tr _ hc b; exact hc b
  | cons op rest ih =>
    intro tr h8 hc b
    obtain ⟨a, p, now⟩ := op
    obtain ⟨h8', hc'⟩ := add_target_preserves_capacity tr h8 hc a p now
    exact ih (tr.add_target a p now).2 h8' hc' b

/-- C7.  Starting from a fresh tracker, no sequence of `add_target` calls ever
brings a channel above the configured maximum of 8 live tracks; and adding 10
detections to one empty channel yields exactly 8 live tracks on that channel
with exactly 2 capacity-exceeded rejections. -/
theorem claim_C7_capacity :
    (∀ (n : ℕ) (ops : List (ℕ × Vec2 × ℚ)) (a : ℕ),
      (runAdds (MultiTargetTracker.new n) ops).1.get_target_count_by_antenna a ≤ 8) ∧
    (runAdds (MultiTargetTracker.new 1)
        (List.replicate 10 (0, (⟨1, 1⟩ : Vec2), (0 : ℚ)))).1.get_target_count_by_antenna 0
      = 8 ∧
    (runAdds (MultiTargetTracker.new 1)
        (List.replicate 10 (0, (⟨1, 1⟩ : Vec2), (0 : ℚ)))).2 = 2 := by
  refine ⟨fun n ops a => ?_, rfl, rfl⟩
  exact runAdds_capacity ops (MultiTargetTracker.new n) rfl
    (fun b => by simp [MultiTargetTracker.new, MultiTargetTracker.get_target_count_by_antenna]) a

/-- C8.  In a tracker whose track map and estimator map hold the same ids,
`remove_lost_targets` removes every track meeting a pruning condition
(idle time beyond the timeout, confidence under 0.1, or more than 10 coast
cycles) from the live set together with its estimator, and afterwards no
estimator id lacks a live track (no orphan). -/
theorem claim_C8_prune (tr : MultiTargetTracker) (now timeout : ℚ)
    (hwf : ∀ id, id ∈ tr.targets.map Prod.fst ↔ id ∈ tr.kalman_filters.map Prod.fst) :
    (∀ q ∈ tr.targets, MultiTargetTracker.lostCondition now timeout q.2 →
      q.1 ∉ (tr.remove_lost_targets now timeout).targets.map Prod.fst ∧
      q.1 ∉ (tr.remove_lost_targets now timeout).kalman_filters.map Prod.fst) ∧
    (∀ id, id ∈ (tr.remove_lost_targets now timeout).kalman_filters.map Prod.fst →
      id ∈ (tr.remove_lost_targets now timeout).targets.map Prod.fst) := by
  unfold MultiTargetTracker.remove_lost_targets
  constructor
  · rintro ⟨id, t⟩ hq hcond
    have hrem : id ∈ (tr.targets.filter fun p =>
        decide (MultiTargetTracker.lostCondition now timeout p.2)).map Prod.fst := by
      exact List.mem_map.mpr ⟨(id, t), List.mem_filter.mpr ⟨hq, by simpa using hcond⟩, rfl⟩
    constructor
    · intro hmem
      obtain ⟨r, hr, hrfst⟩ := List.mem_map.mp hmem
      have := (List.mem_filter.mp hr).2
      simp only [decide_not, Bool.not_eq_true', decide_eq_false_iff_not] at this
      exact this (hrfst ▸ hrem)
    · intro hmem
      obtain ⟨r, hr, hrfst⟩ := List.mem_map.mp hmem
      have := (List.mem_filter.mp hr).2
      simp only [decide_not, Bool.not_eq_true', decide_eq_false_iff_not] at this
      exact this (hrfst ▸ hrem)
  · intro id hmem
    obtain ⟨r, hr, hrfst⟩ := List.mem_map.mp hmem
    obtain ⟨hrk, hpass⟩ := List.mem_filter.mp hr
    simp only [decide_not, Bool.not_eq_true', decide_eq_false_iff_not] at hpass
    have hidk : id ∈ tr.kalman_filters.map Prod.fst := List.mem_map.mpr ⟨r, hrk, hrfst⟩
    obtain ⟨q, hqt, hqfst⟩ := List.mem_map.mp ((hwf id).mpr hidk)
    refine List.mem_map.mpr ⟨q, List.mem_filter.mpr ⟨hqt, ?_⟩, hqfst⟩
    simp only [decide_not, Bool.not_eq_true', decide_eq_false_iff_not]
    rw [hqfst]
    exact hrfst ▸ hpass

/-- C8 witness: the single track of `oneTrackTracker`, created at time 0, meets
the timeout condition at time 100 with timeout 30 and is pruned together with
its estimator. -/
theorem claim_C8_prune_witness :
    (0 : ℕ) ∉ (oneTrackTracker.remove_lost_targets 100 30).targets.map Prod.fst ∧
    (0 : ℕ) ∉ (oneTrackTracker.remove_lost_targets 100 30).kalman_filters.map Prod.fst :=
  (claim_C8_prune oneTrackTracker 100 30
      (by simp [oneTrackTracker, MultiTargetTracker.add_target, MultiTargetTracker.new])).1
    (0, TrackedTarget.new 0 0 ⟨1, 2⟩ 0)
    (by simp [oneTrackTracker, MultiTargetTracker.add_target, MultiTargetTracker.new])
    (by norm_num [MultiTargetTracker.lostCondition, TrackedTarget.new])

/-- `find_nearby_target` returns the first within-gate track: the head of the
within-gate filtering of the live list. -/
theorem find_nearby_eq_filter_head (l : List (ℕ × TrackedTarget)) (p : Vec2) :
    find_nearby_target l p =
      ((l.filter fun q => decide (Vec2.sqDist q.2.position p < 2.0 * 2.0)).head?).map
        Prod.fst := by
  induction l with
  | nil => rfl
  | cons hd tl ih =>
    by_cases hin : Vec2.sqDist hd.2.position p < 2.0 * 2.0
    · simp [find_nearby_target, hin]
    · simpa [find_nearby_target, hin] using ih

/-- `setEntry` never changes the key column of an association list. -/
theorem setEntry_map_fst {α : Type} (l : List (ℕ × α)) (id : ℕ) (a : α) :
    (MultiTargetTracker.setEntry l id a).map Prod.fst = l.map Prod.fst := by
  unfold MultiTargetTracker.setEntry
  rw [List.map_map]
  refine List.map_congr_left fun q _ => ?_
  by_cases hq : q.1 = id <;> simp [hq]

/-- A successful or failed `update_target` call never changes the set of live
track ids nor the set of estimator ids. -/
theorem update_target_map_fst (tr : MultiTargetTracker) (id : ℕ) (pos : Vec2)
    (now : ℚ) (b : Bool) (tr' : MultiTargetTracker)
    (h : tr.update_target id pos now = some (b, tr')) :
    tr'.targets.map Prod.fst = tr.targets.map Prod.fst ∧
    tr'.kalman_filters.map Prod.fst = tr.kalman_filters.map Prod.fst := by
  unfold MultiTargetTracker.update_target at h
  split at h
  · rename_i target kalman_filter ht hk
    dsimp only at h
    split at h
    · split at h
      · exact absurd h (by simp)
      · rename_i kf₂ hkf₂
        have htr : tr' = _ := (congrArg Prod.snd (Option.some.inj h)).symm
        rw [htr]
        exact ⟨setEntry_map_fst _ _ _, setEntry_map_fst _ _ _⟩
    · cases h; exact ⟨rfl, rfl⟩
  · cases h; exact ⟨rfl, rfl⟩

/-- C5.  Associate-or-create: when exactly one live track lies within the
gating distance of a detection, processing the detection delegates to a
measurement update of that track and the set of live track ids is unchanged
(no new track); when every live track is strictly farther than the gating
distance and the detection's channel has spare capacity, processing appends
exactly one new track (the freshly allocated id) and nothing else. -/
theorem claim_C5_associate_or_create (tr : MultiTargetTracker) (a : ℕ) (pos : Vec2)
    (now : ℚ) :
    (∀ i₀ t₀,
      (tr.targets.filter fun q => decide (Vec2.sqDist q.2.position pos < 2.0 * 2.0)) =
        [(i₀, t₀)] →
      processDetection tr a pos now = (tr.update_target i₀ pos now).map Prod.snd ∧
      ∀ tr', processDetection tr a pos now = some tr' →
        tr'.targets.map Prod.fst = tr.targets.map Prod.fst) ∧
    ((∀ q ∈ tr.targets, 2.0 * 2.0 < Vec2.sqDist q.2.position pos) →
      tr.get_target_count_by_antenna a < tr.max_targets_per_antenna →
      (tr.add_target a pos now).1 = some tr.next_target_id ∧
      processDetection tr a pos now = some (tr.add_target a pos now).2 ∧
      (tr.add_target a pos now).2.targets =
        tr.targets ++ [(tr.next_target_id, TrackedTarget.new tr.next_target_id a pos now)]) := by
  constructor
  · intro i₀ t₀ hfilter
    have hfind : find_nearby_target tr.targets pos = some i₀ := by
      rw [find_nearby_eq_filter_head, hfilter]; rfl
    constructor
    · show processDetection tr a pos now = _
      unfold processDetection
      rw [hfind]
    · intro tr' h
      unfold processDetection at h
      rw [hfind] at h
      obtain ⟨⟨b, tr₂⟩, hup, hsnd⟩ := Option.map_eq_some'.mp h
      have hsnd' : tr₂ = tr' := hsnd
      subst hsnd'
      exact (update_target_map_fst tr i₀ pos now b tr₂ hup).1
  · intro hfar hcap
    have hfilter :
        (tr.targets.filter fun q => decide (Vec2.sqDist q.2.position pos < 2.0 * 2.0)) =
          [] := by
      rw [List.filter_eq_nil_iff]
      intro q hq
      simpa using not_lt_of_gt (hfar q hq)
    have hfind : find_nearby_target tr.targets pos = none := by
      rw [find_nearby_eq_filter_head, hfilter]; rfl
    have hroom : ¬ tr.max_targets_per_antenna ≤
        (tr.targets.filter fun p => p.2.antenna_id = a).length :=
      not_le.mpr hcap
    refine ⟨?_, ?_, ?_⟩
    · unfold MultiTargetTracker.add_target
      simp [hroom]
    · unfold processDetection
      rw [hfind]
    · unfold MultiTargetTracker.add_target
      simp [hroom]

/-- C5 witness: on `oneTrackTracker`, a detection at the tracked position
(within the gate of exactly that one track) is routed to `update_target`,
while a detection at (9, 9) (outside every gate, capacity available) appends
exactly one new track with the next id. -/
theorem claim_C5_associate_or_create_witness :
    processDetection oneTrackTracker 0 ⟨1, 2⟩ 1 =
      (oneTrackTracker.update_target 0 ⟨1, 2⟩ 1).map Prod.snd ∧
    ((oneTrackTracker.add_target 0 ⟨9, 9⟩ 1).1 = some oneTrackTracker.next_target_id ∧
      processDetection oneTrackTracker 0 ⟨9, 9⟩ 1 =
        some (oneTrackTracker.add_target 0 ⟨9, 9⟩ 1).2 ∧
      (oneTrackTracker.add_target 0 ⟨9, 9⟩ 1).2.targets =
        oneTrackTracker.targets ++
          [(oneTrackTracker.next_target_id,
            TrackedTarget.new oneTrackTracker.next_target_id 0 ⟨9, 9⟩ 1)]) :=
  ⟨((claim_C5_associate_or_create oneTrackTracker 0 ⟨1, 2⟩ 1).1 0
      (TrackedTarget.new 0 0 ⟨1, 2⟩ 0)
      (by norm_num [oneTrackTracker, MultiTargetTracker.add_target,
        MultiTargetTracker.new, Vec2.sqDist, Vec2.sqNorm, TrackedTarget.new,
        List.filter])).1,
   (claim_C5_associate_or_create oneTrackTracker 0 ⟨9, 9⟩ 1).2
      (by
        intro q hq
        have hq' : q = (0, TrackedTarget.new 0 0 ⟨1, 2⟩ 0) := by
          simpa [oneTrackTracker, MultiTargetTracker.add_target,
            MultiTargetTracker.new] using hq
        rw [hq']
        norm_num [Vec2.sqDist, Vec2.sqNorm, TrackedTarget.new])
      (by norm_num [oneTrackTracker, MultiTargetTracker.add_target,
        MultiTargetTracker.new, MultiTargetTracker.get_target_count_by_antenna,
        TrackedTarget.new, List.filter])⟩

/-- A successful association-list lookup finds an element of the list. -/
theorem lookup_mem {α : Type} {l : List (ℕ × α)} {k : ℕ} {v : α}
    (h : l.lookup k = some v) : (k, v) ∈ l := by
  induction l with
  | nil => simp [List.lookup] at h
  | cons hd tl ih =>
    obtain ⟨a, b⟩ := hd
    by_cases hk : k = a
    · subst hk
      simp [List.lookup] at h
      simp [h]
    · have hba : (k == a) = false := beq_eq_false_iff_ne.mpr hk
      rw [List.lookup, hba] at h
      exact List.mem_cons_of_mem _ (ih h)

/-- Elements of `setEntry l id a` are either the overwritten entry `(id, a)`
or untouched elements of `l`. -/
theorem mem_setEntry {α : Type} {l : List (ℕ × α)} {id : ℕ} {a : α} {q : ℕ × α}
    (h : q ∈ MultiTargetTracker.setEntry l id a) : q = (id, a) ∨ q ∈ l := by
  unfold MultiTargetTracker.setEntry at h
  obtain ⟨p, hp, hfq⟩ := List.mem_map.mp h
  by_cases hpid : p.1 = id
  · left; rw [← hfq, if_pos hpid]
  · right; rwa [← hfq, if_neg hpid]

/-- The fall-risk score always lies in [0, 1]: the additive accumulation is
nonnegative and the final `min · 1` caps it at 1. -/
theorem analyze_fall_risk_bounds (d : FallDetector) (t : TrackedTarget) :
    0 ≤ d.analyze_fall_risk t ∧ d.analyze_fall_risk t ≤ 1 := by
  unfold FallDetector.analyze_fall_risk
  dsimp only
  split_ifs <;> constructor <;> norm_num

/-- `update_position` keeps a confidence lying in [0, 1] inside [0, 1]. -/
theorem update_position_confidence_bounds (t : TrackedTarget) (p : Vec2)
    (dt now : ℚ) (hc : 0 ≤ t.confidence) (hc1 : t.confidence ≤ 1) :
    0 ≤ (t.update_position p dt now).confidence ∧
    (t.update_position p dt now).confidence ≤ 1 := by
  unfold TrackedTarget.update_position
  split_ifs
  · exact ⟨le_min (by positivity) (by norm_num), min_le_right _ _⟩
  · exact ⟨hc, hc1⟩

/-- Every Tracking Manager operation preserves the [0, 1] bounds on confidence
and fall-risk score of all live tracks. -/
theorem stepOp_preserves_confFallInv (tr : MultiTargetTracker) (op : TrackOp)
    (tr' : MultiTargetTracker) (hinv : confFallInv tr) (h : stepOp tr op = some tr') :
    confFallInv tr' := by
  cases op with
  | add a p now =>
    have htr : tr' = (tr.add_target a p now).2 := by
      have := h.symm; simpa [stepOp] using this
    subst htr
    unfold MultiTargetTracker.add_target
    dsimp only
    split_ifs
    · exact hinv
    · intro q hq
      rcases List.mem_append.mp hq with hq | hq
      · exact hinv q hq
      · have : q = (tr.next_target_id, TrackedTarget.new tr.next_target_id a p now) := by
          simpa using hq
        rw [this]
        norm_num [TrackedTarget.new]
  | measure id p now =>
    obtain ⟨⟨b, tr₂⟩, hup, hsnd⟩ := Option.map_eq_some'.mp
      (show (tr.update_target id p now).map Prod.snd = some tr' from h)
    have hsnd' : tr₂ = tr' := hsnd
    subst hsnd'
    unfold MultiTargetTracker.update_target at hup
    split at hup
    · rename_i target kalman_filter ht hk
      dsimp only at hup
      split at hup
      · rename_i hdt
        split at hup
        · exact absurd hup (by simp)
        · rename_i kf₂ hkf₂
          have htr : tr₂ = _ := (congrArg Prod.snd (Option.some.inj hup)).symm
          rw [htr]
          intro q hq
          rcases mem_setEntry hq with hq1 | hq2
          · rw [hq1]
            have hmem := hinv (id, target) (lookup_mem ht)
            have hub := update_position_confidence_bounds target kf₂.get_position
              (max (now - target.last_update) 0) now hmem.1 hmem.2.1
            have hfb := analyze_fall_risk_bounds tr.fall_detector
              { target.update_position kf₂.get_position (max (now - target.last_update) 0) now with
                velocity := kf₂.get_velocity
                acceleration := kf₂.get_acceleration }
            exact ⟨hub.1, hub.2, hfb.1, hfb.2⟩
          · exact hinv q hq2
      · have : tr = tr₂ := congrArg Prod.snd (Option.some.inj hup)
        rw [← this]
        exact hinv
    · have : tr = tr₂ := congrArg Prod.snd (Option.some.inj hup)
      rw [← this]
      exact hinv
  | coast dt =>
    have htr : tr' = tr.predict_all_targets dt := by
      have := h.symm; simpa [stepOp] using this
    subst htr
    intro q hq
    unfold MultiTargetTracker.predict_all_targets at hq
    obtain ⟨r, hr, hfq⟩ := List.mem_map.mp hq
    have hbase := hinv r hr
    cases hlk : List.lookup r.1 tr.kalman_filters with
    | none => rw [← hfq]; simp only [hlk]; exact hbase
    | some kf =>
      rw [← hfq]
      simp only [hlk, MultiTargetTracker.coastTarget]
      refine ⟨mul_nonneg hbase.1 (by norm_num), ?_, hbase.2.2.1, hbase.2.2.2⟩
      calc r.2.confidence * 0.9 ≤ 1 * 0.9 :=
            mul_le_mul_of_nonneg_right hbase.2.1 (by norm_num)
        _ ≤ 1 := by norm_num
  | prune now timeout =>
    have htr : tr' = tr.remove_lost_targets now timeout := by
      have := h.symm; simpa [stepOp] using this
    subst htr
    intro q hq
    unfold MultiTargetTracker.remove_lost_targets at hq
    exact hinv q (List.mem_filter.mp hq).1

/-- Any completed run of Tracking Manager operations preserves the bounds. -/
theorem runOps_preserves_confFallInv (ops : List TrackOp) :
    ∀ tr tr' : MultiTargetTracker, confFallInv tr → runOps tr ops = some tr' →
      confFallInv tr' := by
  induction ops with
  | nil =>
    intro tr tr' hinv h
    obtain rfl : tr = tr' := Option.some.inj h
    exact hinv
  | cons op rest ih =>
    intro tr tr' hinv h
    unfold runOps at h
    cases hstep : stepOp tr op with
    | none => rw [hstep] at h; exact absurd h (by simp)
    | some tr₂ =>
      rw [hstep] at h
      exact ih tr₂ tr' (stepOp_preserves_confFallInv tr op tr₂ hinv hstep) h

/-- C6.  Starting from a fresh tracker, after any completed finite sequence of
add / measurement-update / coast / prune operations, every live track's
confidence and fall-risk score lie in [0, 1]. -/
theorem claim_C6_conf_fall_bounds (n : ℕ) (ops : List TrackOp)
    (tr' : MultiTargetTracker) (h : runOps (MultiTargetTracker.new n) ops = some tr') :
    ∀ q ∈ tr'.targets, 0 ≤ q.2.confidence ∧ q.2.confidence ≤ 1 ∧
      0 ≤ q.2.fall_probability ∧ q.2.fall_probability ≤ 1 :=
  runOps_preserves_confFallInv ops (MultiTargetTracker.new n) tr'
    (by intro q hq; simp [MultiTargetTracker.new] at hq) h

/-- C6 witness: a creation followed by one coast cycle; the coasted track's
confidence and fall-risk score lie in [0, 1]. -/
theorem claim_C6_conf_fall_bounds_witness :
    0 ≤ (MultiTargetTracker.coastTarget (TrackedTarget.new 0 0 ⟨1, 2⟩ 0)
        ((KalmanFilter.new ⟨1, 2⟩).predict 1)).confidence ∧
    (MultiTargetTracker.coastTarget (TrackedTarget.new 0 0 ⟨1, 2⟩ 0)
        ((KalmanFilter.new ⟨1, 2⟩).predict 1)).confidence ≤ 1 ∧
    0 ≤ (MultiTargetTracker.coastTarget (TrackedTarget.new 0 0 ⟨1, 2⟩ 0)
        ((KalmanFilter.new ⟨1, 2⟩).predict 1)).fall_probability ∧
    (MultiTargetTracker.coastTarget (TrackedTarget.new 0 0 ⟨1, 2⟩ 0)
        ((KalmanFilter.new ⟨1, 2⟩).predict 1)).fall_probability ≤ 1 :=
  claim_C6_conf_fall_bounds 4 [TrackOp.add 0 ⟨1, 2⟩ 0, TrackOp.coast 1]
    (((MultiTargetTracker.new 4).add_target 0 ⟨1, 2⟩ 0).2.predict_all_targets 1) rfl
    (0, MultiTargetTracker.coastTarget (TrackedTarget.new 0 0 ⟨1, 2⟩ 0)
      ((KalmanFilter.new ⟨1, 2⟩).predict 1))
    (by simp [MultiTargetTracker.predict_all_targets, MultiTargetTracker.add_target,
      MultiTargetTracker.new, List.lookup])

/-- Rows 2–5 of `F·s`: velocity picks up `dt`-scaled acceleration, acceleration
is unchanged. -/
theorem transition_mulVec_tail (dt : ℚ) (s : Fin 6 → ℚ) :
    ((KalmanFilter.transitionMatrix dt).mulVec s) 2 = s 2 + dt * s 4 ∧
    ((KalmanFilter.transitionMatrix dt).mulVec s) 3 = s 3 + dt * s 5 ∧
    ((KalmanFilter.transitionMatrix dt).mulVec s) 4 = s 4 ∧
    ((KalmanFilter.transitionMatrix dt).mulVec s) 5 = s 5 := by
  refine ⟨?_, ?_, ?_, ?_⟩ <;>
    simp [Matrix.mulVec, Matrix.dotProduct, KalmanFilter.transitionMatrix,
      Fin.sum_univ_six, Matrix.of_apply, Fin.isValue]

/-- `predict` keeps zero velocity/acceleration rows exactly zero. -/
theorem predict_preserves_kfZeroVA (kf : KalmanFilter) (dt : ℚ)
    (h : kfZeroVA kf) : kfZeroVA (kf.predict dt) := by
  obtain ⟨h2, h3, h4, h5⟩ := h
  obtain ⟨e2, e3, e4, e5⟩ := transition_mulVec_tail dt kf.state
  exact ⟨by show ((KalmanFilter.transitionMatrix dt).mulVec kf.state) 2 = 0;
            rw [e2, h2, h4]; ring,
         by show ((KalmanFilter.transitionMatrix dt).mulVec kf.state) 3 = 0;
            rw [e3, h3, h5]; ring,
         by show ((KalmanFilter.transitionMatrix dt).mulVec kf.state) 4 = 0;
            rw [e4, h4],
         by show ((KalmanFilter.transitionMatrix dt).mulVec kf.state) 5 = 0;
            rw [e5, h5]⟩

/-- A successful `update` never touches any state row other than the two
position rows 0 and 1. -/
theorem update_state_tail (kf : KalmanFilter) (z : Vec2) (kf₂ : KalmanFilter)
    (hup : kf.update z = some kf₂) (i : Fin 6) (h0 : i ≠ 0) (h1 : i ≠ 1) :
    kf₂.state i = kf.state i := by
  unfold KalmanFilter.update at hup
  dsimp only at hup
  split at hup
  · exact absurd hup (by simp)
  · rename_i sInv hinv
    have hkf : kf₂ = _ := (Option.some.inj hup).symm
    rw [hkf]
    dsimp only
    rw [if_neg h0, if_neg h1]

/-- A successful `update` keeps zero velocity/acceleration rows exactly zero. -/
theorem update_preserves_kfZeroVA (kf : KalmanFilter) (z : Vec2)
    (kf₂ : KalmanFilter) (h : kfZeroVA kf) (hup : kf.update z = some kf₂) :
    kfZeroVA kf₂ := by
  obtain ⟨h2, h3, h4, h5⟩ := h
  refine ⟨?_, ?_, ?_, ?_⟩
  · rw [update_state_tail kf z kf₂ hup 2 (by decide) (by decide)]; exact h2
  · rw [update_state_tail kf z kf₂ hup 3 (by decide) (by decide)]; exact h3
  · rw [update_state_tail kf z kf₂ hup 4 (by decide) (by decide)]; exact h4
  · rw [update_state_tail kf z kf₂ hup 5 (by decide) (by decide)]; exact h5

/-- Looking up the overwritten id after `setEntry` yields the new value
whenever the id was present. -/
theorem lookup_setEntry {α : Type} (l : List (ℕ × α)) (id : ℕ) (a : α) :
    (MultiTargetTracker.setEntry l id a).lookup id = (l.lookup id).map fun _ => a := by
  induction l with
  | nil => rfl
  | cons hd tl ih =>
    obtain ⟨k, v⟩ := hd
    by_cases hk : k = id
    · subst hk
      unfold MultiTargetTracker.setEntry
      rw [List.map_cons,
        show (if ((k, v) : ℕ × α).1 = k then (k, a) else (k, v)) = (k, a) from if_pos rfl,
        List.lookup, beq_self_eq_true, List.lookup, beq_self_eq_true]
      rfl
    · have hbk : (id == k) = false := beq_eq_false_iff_ne.mpr (Ne.symm hk)
      unfold MultiTargetTracker.setEntry at ih ⊢
      simp only [List.map_cons, if_neg hk]
      rw [List.lookup, hbk, List.lookup, hbk]
      exact ih

/-- With the default thresholds, a track with zero velocity and acceleration
scores zero fall risk. -/
theorem analyze_zero_kinematics (t : TrackedTarget)
    (hv : t.velocity = ⟨0, 0⟩) (ha : t.acceleration = ⟨0, 0⟩) :
    FallDetector.new.analyze_fall_risk t = 0 := by
  unfold FallDetector.analyze_fall_risk FallDetector.new
  rw [hv, ha]
  norm_num [Vec2.sqNorm]

/-- One `update_target` call on the tracked id preserves the zero
velocity/acceleration invariant: `predict` propagates zero rows to zero, the
Kalman correction touches only position rows, and the copied-back kinematics,
fall score and state follow. -/
theorem update_target_preserves_zeroVA (tr : MultiTargetTracker) (id : ℕ)
    (pos : Vec2) (now : ℚ) (b : Bool) (tr' : MultiTargetTracker)
    (hinv : trackerZeroVA tr id) (h : tr.update_target id pos now = some (b, tr')) :
    trackerZeroVA tr' id := by
  obtain ⟨hdet, htgt, hkf⟩ := hinv
  unfold MultiTargetTracker.update_target at h
  split at h
  · rename_i target kalman_filter ht hk
    dsimp only at h
    split at h
    · rename_i hdt
      split at h
      · exact absurd h (by simp)
      · rename_i kf₂ hkf₂
        have hzero₂ : kfZeroVA kf₂ :=
          update_preserves_kfZeroVA _ pos kf₂
            (predict_preserves_kfZeroVA kalman_filter _ (hkf kalman_filter hk)) hkf₂
        have hv : kf₂.get_velocity = (⟨0, 0⟩ : Vec2) := by
          unfold KalmanFilter.get_velocity
          rw [hzero₂.1, hzero₂.2.1]
        have ha : kf₂.get_acceleration = (⟨0, 0⟩ : Vec2) := by
          unfold KalmanFilter.get_acceleration
          rw [hzero₂.2.2.1, hzero₂.2.2.2]
        have htr : tr' = _ := (congrArg Prod.snd (Option.some.inj h)).symm
        rw [htr]
        refine ⟨hdet, ?_, ?_⟩
        · intro t hlt
          have hlt' : (MultiTargetTracker.setEntry tr.targets id
              (MultiTargetTracker.applyFallAnalysis tr.fall_detector
                { target.update_position kf₂.get_position
                    (max (now - target.last_update) 0) now with
                  velocity := kf₂.get_velocity
                  acceleration := kf₂.get_acceleration })).lookup id = some t := hlt
          rw [lookup_setEntry, ht, Option.map_some'] at hlt'
          obtain rfl : MultiTargetTracker.applyFallAnalysis tr.fall_detector
              { target.update_position kf₂.get_position
                  (max (now - target.last_update) 0) now with
                velocity := kf₂.get_velocity
                acceleration := kf₂.get_acceleration } = t := Option.some.inj hlt'
          have hrisk : tr.fall_detector.analyze_fall_risk
              { target.update_position kf₂.get_position
                  (max (now - target.last_update) 0) now with
                velocity := kf₂.get_velocity
                acceleration := kf₂.get_acceleration } = 0 := by
            rw [hdet]
            exact analyze_zero_kinematics _ hv ha
          unfold MultiTargetTracker.applyFallAnalysis
          rw [hrisk]
          refine ⟨hv, ha, rfl, ?_⟩
          norm_num
          decide
        · intro kf hlk
          have hlk' : (MultiTargetTracker.setEntry tr.kalman_filters id kf₂).lookup id =
              some kf := hlk
          rw [lookup_setEntry, hk, Option.map_some'] at hlk'
          obtain rfl : kf₂ = kf := Option.some.inj hlk'
          exact hzero₂
    · have heq : tr = tr' := congrArg Prod.snd (Option.some.inj h)
      rw [← heq]
      exact ⟨hdet, htgt, hkf⟩
  · have heq : tr = tr' := congrArg Prod.snd (Option.some.inj h)
    rw [← heq]
    exact ⟨hdet, htgt, hkf⟩

/-- A completed sequence of `update_target` calls on one id preserves the zero
velocity/acceleration invariant. -/
theorem runUpdates_preserves_zeroVA (id : ℕ) (ops : List (Vec2 × ℚ)) :
    ∀ tr tr' : MultiTargetTracker, trackerZeroVA tr id →
      runUpdates id tr ops = some tr' → trackerZeroVA tr' id := by
  induction ops with
  | nil =>
    intro tr tr' hinv h
    obtain rfl : tr = tr' := Option.some.inj h
    exact hinv
  | cons op rest ih =>
    intro tr tr' hinv h
    obtain ⟨pos, now⟩ := op
    unfold runUpdates at h
    cases hstep : tr.update_target id pos now with
    | none => rw [hstep] at h; exact absurd h (by simp)
    | some p =>
      obtain ⟨b, tr₂⟩ := p
      rw [hstep] at h
      exact ih tr₂ tr'
        (update_target_preserves_zeroVA tr id pos now b tr₂ hinv hstep) h

/-- C2.  A track created by `add_target` on a fresh tracker (it receives id 0)
and then mutated only by `update_target` calls keeps velocity and acceleration
exactly (0, 0): the Kalman correction commits only the position rows, so the
zero velocity/acceleration rows propagate through every predict/update cycle,
the copied-back kinematics stay (0, 0), the recomputed fall-risk score stays
0, and the state is never set to `Falling`. -/
theorem claim_C2_zero_velocity_forever (n a : ℕ) (p₀ : Vec2) (now₀ : ℚ)
    (ops : List (Vec2 × ℚ)) (tr' : MultiTargetTracker) (t : TrackedTarget)
    (h : runUpdates 0 ((MultiTargetTracker.new n).add_target a p₀ now₀).2 ops = some tr')
    (ht : tr'.targets.lookup 0 = some t) :
    ((MultiTargetTracker.new n).add_target a p₀ now₀).1 = some 0 ∧
    t.velocity = ⟨0, 0⟩ ∧ t.acceleration = ⟨0, 0⟩ ∧ t.fall_probability = 0 ∧
    t.state ≠ TargetState.Falling := by
  have hinit : trackerZeroVA ((MultiTargetTracker.new n).add_target a p₀ now₀).2 0 := by
    unfold MultiTargetTracker.add_target MultiTargetTracker.new
    norm_num
    refine ⟨rfl, ?_, ?_⟩
    · intro t' hlt
      obtain rfl : TrackedTarget.new 0 a p₀ now₀ = t' := by
        simpa [List.lookup] using hlt
      exact ⟨rfl, rfl, rfl, by simp [TrackedTarget.new]⟩
    · intro kf hlk
      obtain rfl : KalmanFilter.new p₀ = kf := by
        simpa [List.lookup] using hlk
      refine ⟨?_, ?_, ?_, ?_⟩ <;>
        · unfold KalmanFilter.new
          dsimp only
          rw [if_neg (by decide), if_neg (by decide)]
  have hfin := runUpdates_preserves_zeroVA 0 ops _ tr' hinit h
  refine ⟨?_, hfin.2.1 t ht⟩
  unfold MultiTargetTracker.add_target MultiTargetTracker.new
  norm_num

/-- C2 witness: the freshly created track (id 0) satisfies the conclusion
after the empty update sequence. -/
theorem claim_C2_zero_velocity_forever_witness :
    ((MultiTargetTracker.new 4).add_target 0 ⟨1, 2⟩ 0).1 = some 0 ∧
    (TrackedTarget.new 0 0 ⟨1, 2⟩ 0).velocity = ⟨0, 0⟩ ∧
    (TrackedTarget.new 0 0 ⟨1, 2⟩ 0).acceleration = ⟨0, 0⟩ ∧
    (TrackedTarget.new 0 0 ⟨1, 2⟩ 0).fall_probability = 0 ∧
    (TrackedTarget.new 0 0 ⟨1, 2⟩ 0).state ≠ TargetState.Falling :=
  claim_C2_zero_velocity_forever 4 0 ⟨1, 2⟩ 0 []
    ((MultiTargetTracker.new 4).add_target 0 ⟨1, 2⟩ 0).2
    (TrackedTarget.new 0 0 ⟨1, 2⟩ 0) rfl rfl

/-- C9 witness: updating the live track of `oneTrackTracker` (last update at
time 0) at the earlier time -1 reports `false` and changes nothing. -/
theorem claim_C9_degenerate_dt_noop_witness :
    oneTrackTracker.update_target 0 ⟨3, 3⟩ (-1) = some (false, oneTrackTracker) :=
  claim_C9_degenerate_dt_noop oneTrackTracker 0 ⟨3, 3⟩ (-1)
    (TrackedTarget.new 0 0 ⟨1, 2⟩ 0) rfl (by norm_num [TrackedTarget.new])
